import Mathlib

/-!
Shallow embedding of `pkg/download/download.go` from the `fleet` repository.

The Go package exposes two functions, `Download` and `Decompress`, with
literally identical bodies: fetch a URL with a caller-supplied HTTP client,
optionally wrap the response body in a decompressing reader chosen by a
trailing-substring test on the URL path (`gz`, `bz2`, `xz`), stream the
result into a uniquely named temporary file created next to the destination,
and atomically rename it into place, removing the temporary file on every
failure path via a `moved` guard.

Modelling choices:
* The external world (filesystem call outcomes, the HTTP client, and the
  third-party decompression libraries `compress/gzip`, `compress/bzip2`,
  `github.com/ulikunitz/xz`) is an oracle `Env` fixing the outcome of each
  effectful call the Go code makes, in program order.  `bzip2.NewReader`
  returns no error in Go (its Go signature is `func NewReader(r io.Reader)
  io.Reader`), so `Env` structurally has no bzip2 init outcome; gzip and xz
  readers can fail at construction, so their init outcomes are in `Env`.
* The filesystem is an association list from path strings to byte lists,
  plus a list of directories with their creation mode.  Paths are compared
  as plain strings (no canonicalisation), matching how the Go code only
  ever passes back the exact strings it built.
* Go byte slices are `List Nat`; Go `error` values are `GoError`: either a
  collaborator's error taken as-is (`base`) or wrapped once with a
  `fmt.Errorf("...: %w", err)` context message (`wrapped`), mirroring the
  only two shapes the Go function returns.
* `ioutil.TempFile(dir, file)` produces `dir ++ file ++ suffix` for an
  oracle-chosen non-empty random `suffix`, on a path that does not yet
  exist, matching TempFile's unique-name guarantee.
* `tmpFile.Close()` and `resp.Body.Close()` in `defer` position have no
  filesystem effect in this model; the explicit mid-function
  `tmpFile.Close()` whose error the code checks is the `closeRes` oracle.
-/

/-- Go `error` values as returned by `Download`: either an underlying
collaborator error returned bare (`return err`), or that error wrapped once
with a context message (`fmt.Errorf("msg: %w", err)`). -/
inductive GoError where
  | base (msg : String)
  | wrapped (ctx : String) (e : GoError)
deriving DecidableEq, Repr

/-- Whether a `GoError` is a bare collaborator error (not wrapped with any
stage context by `Download` itself). -/
def GoError.isBare : GoError → Bool
  | .base _ => true
  | .wrapped _ _ => false

/-- The `*url.URL` argument; the Go code reads only `u.Path` (for decoder
selection) — `u.String()` feeds `http.NewRequest`, whose outcome is the
`reqRes` oracle. -/
structure URL where
  path : String
deriving DecidableEq, Repr

/-- An `*http.Response` as far as the Go code observes it: a status code
(which the code never reads) and the body bytes. -/
structure Resp where
  status : Nat
  body : List Nat
deriving DecidableEq, Repr

/-- Oracle fixing the outcome of every effectful call `Download` makes, in
program order.  `none` / `Except.ok` means the call succeeds. -/
structure Env where
  /-- outcome of `os.MkdirAll(dir, 0o755)` -/
  mkdirRes : Option String
  /-- outcome of `ioutil.TempFile(dir, file)` -/
  tempRes : Option String
  /-- the unique random part TempFile appends to the `file` name hint -/
  tempSuffix : String
  /-- outcome of `http.NewRequest(http.MethodGet, u.String(), nil)` -/
  reqRes : Option String
  /-- outcome of `client.Do(req)` -/
  doRes : Except String Resp
  /-- outcome of `gzip.NewReader(resp.Body)`: `some e` when the stream
  lacks a valid gzip header -/
  gzipInit : List Nat → Option String
  /-- result of reading the gzip reader to exhaustion during `io.Copy` -/
  gzipRead : List Nat → Except String (List Nat)
  /-- result of reading the bzip2 reader to exhaustion during `io.Copy`;
  `bzip2.NewReader` itself returns no error, so there is no bzip2 init
  outcome — an invalid bzip2 header surfaces here, on first read -/
  bzip2Read : List Nat → Except String (List Nat)
  /-- outcome of `xz.NewReader(resp.Body)`: `some e` on invalid header -/
  xzInit : List Nat → Option String
  /-- result of reading the xz reader to exhaustion during `io.Copy` -/
  xzRead : List Nat → Except String (List Nat)
  /-- write-side outcome of `io.Copy(tmpFile, r)` -/
  copyWriteRes : Option String
  /-- how many bytes landed in the temp file before a write-side failure -/
  copyWrittenLen : Nat
  /-- outcome of the checked `tmpFile.Close()` -/
  closeRes : Option String
  /-- outcome of `os.Rename(tmpFile.Name(), path)` -/
  renameRes : Option String

/-- Lookup in an association list keyed by path strings. -/
def lookupKey {α : Type} : List (String × α) → String → Option α
  | [], _ => none
  | e :: fs, p => if e.1 = p then some e.2 else lookupKey fs p

/-- Remove every entry with the given key. -/
def removeKey {α : Type} : List (String × α) → String → List (String × α)
  | [], _ => []
  | e :: fs, p => if e.1 = p then removeKey fs p else e :: removeKey fs p

/-- Write (create or overwrite) the entry at a key. -/
def setKey {α : Type} (fs : List (String × α)) (p : String) (c : α) :
    List (String × α) :=
  (p, c) :: removeKey fs p

/-- Number of entries with the given key. -/
def countKey {α : Type} : List (String × α) → String → Nat
  | [], _ => 0
  | e :: fs, p => (if e.1 = p then 1 else 0) + countKey fs p

/-- The filesystem: files (path to content bytes) and directories (path to
creation mode). -/
structure FS where
  files : List (String × List Nat)
  dirs : List (String × Nat)
deriving DecidableEq, Repr

/-- Mirror of Go `filepath.Split` on `/`-separated paths over the
character list: splits immediately after the final separator, the directory
part keeping its trailing slash. -/
def splitChars : List Char → List Char × List Char
  | [] => ([], [])
  | c :: cs =>
    if cs.contains '/' then
      (c :: (splitChars cs).1, (splitChars cs).2)
    else if c = '/' then ([c], cs)
    else ([], c :: cs)

/-- Mirror of Go `filepath.Split path`: `(dir, file)` with `dir ++ file =
path` and `dir` keeping its trailing slash (empty when `path` has no
separator). -/
def splitPath (p : String) : String × String :=
  (String.mk (splitChars p.data).1, String.mk (splitChars p.data).2)

/-- Mirror of Go `strings.HasSuffix s suf`: plain trailing-substring test. -/
def hasSuffix (s suf : String) : Bool :=
  List.isSuffixOf suf.data s.data

/-- The list of directories `os.MkdirAll dir` creates when none exist:
every `/`-separated ancestor of `dir`, shortest first. -/
def ancestorDirs (dir : String) : List String :=
  let comps := (dir.splitOn "/").filter (fun c => c != "")
  (comps.foldl
    (fun (acc : List String × String) c =>
      let p := if acc.2 = "" then c else acc.2 ++ "/" ++ c
      (acc.1 ++ [p], p)) ([], "")).1

/-- Mirror of `os.MkdirAll(dir, mode)` on the model filesystem: create each
missing ancestor with the given mode; existing directories are untouched. -/
def mkdirAll (fs : FS) (dir : String) (mode : Nat) : FS :=
  { fs with
    dirs := (ancestorDirs dir).foldl
      (fun ds d => if (lookupKey ds d).isSome then ds else (d, mode) :: ds)
      fs.dirs }

/-- The temporary file name `ioutil.TempFile(dir, file)` picks for a call
with this destination path: the (normalised) directory, the base-name hint,
and the oracle's unique random part. -/
def tmpNameOf (env : Env) (path : String) : String :=
  let dir0 := (splitPath path).1
  let file := (splitPath path).2
  (if dir0 = "" then "." else dir0) ++ file ++ env.tempSuffix

/-- Shallow embedding of `Download(client, u, path)` from
`pkg/download/download.go`.  Returns the Go result (`error` or success) and
the filesystem after all deferred cleanups have run.  Control flow mirrors
the source line by line; each effectful call consults the `Env` oracle. -/
def Download (env : Env) (u : URL) (path : String) (fs : FS) :
    Except GoError Unit × FS :=
  -- dir, file := filepath.Split(path); if dir == "" { dir = "." }
  let dir0 := (splitPath path).1
  let file := (splitPath path).2
  let dir := if dir0 = "" then "." else dir0
  -- if err := os.MkdirAll(dir, 0o755); err != nil { return err }
  match env.mkdirRes with
  | some e => (Except.error (GoError.base e), fs)
  | none =>
  let fs1 := mkdirAll fs dir 493
  -- tmpFile, err := ioutil.TempFile(dir, file)
  match env.tempRes with
  | some e =>
      (Except.error (GoError.wrapped "create temporary file" (GoError.base e)), fs1)
  | none =>
  let tmp := dir ++ file ++ env.tempSuffix
  let fs2 : FS := { fs1 with files := setKey fs1.files tmp [] }
  -- from here the `moved` guard is armed: every failure path removes tmp
  -- req, err := http.NewRequest(http.MethodGet, u.String(), nil)
  match env.reqRes with
  | some e =>
      (Except.error (GoError.base e), { fs2 with files := removeKey fs2.files tmp })
  | none =>
  -- resp, err := client.Do(req)
  match env.doRes with
  | Except.error e =>
      (Except.error (GoError.base e), { fs2 with files := removeKey fs2.files tmp })
  | Except.ok resp =>
  -- switch { case strings.HasSuffix(u.Path, "gz"): ... }
  let sel : Except String (Except String (List Nat)) :=
    if hasSuffix u.path "gz" then
      match env.gzipInit resp.body with
      | some e => Except.error e
      | none => Except.ok (env.gzipRead resp.body)
    else if hasSuffix u.path "bz2" then
      Except.ok (env.bzip2Read resp.body)
    else if hasSuffix u.path "xz" then
      match env.xzInit resp.body with
      | some e => Except.error e
      | none => Except.ok (env.xzRead resp.body)
    else
      Except.ok (Except.ok resp.body)
  match sel with
  | Except.error e =>
      (Except.error (GoError.base e), { fs2 with files := removeKey fs2.files tmp })
  | Except.ok readRes =>
  -- if _, err := io.Copy(tmpFile, r); err != nil { return err }
  match readRes with
  | Except.error e =>
      (Except.error (GoError.base e), { fs2 with files := removeKey fs2.files tmp })
  | Except.ok data =>
  match env.copyWriteRes with
  | some e =>
      (Except.error (GoError.base e),
       { fs2 with files :=
           removeKey (setKey fs2.files tmp (data.take env.copyWrittenLen)) tmp })
  | none =>
  let fs3 : FS := { fs2 with files := setKey fs2.files tmp data }
  -- if err := tmpFile.Close(); err != nil { return fmt.Errorf(...) }
  match env.closeRes with
  | some e =>
      (Except.error (GoError.wrapped "write and close temporary file" (GoError.base e)),
       { fs3 with files := removeKey fs3.files tmp })
  | none =>
  -- if err := os.Rename(tmpFile.Name(), path); err != nil { return err }
  match env.renameRes with
  | some e =>
      (Except.error (GoError.base e), { fs3 with files := removeKey fs3.files tmp })
  | none =>
  -- moved = true; return nil
  (Except.ok (), { fs3 with files := setKey (removeKey fs3.files tmp) path data })

/-- Shallow embedding of `Decompress(client, u, path)` from
`pkg/download/download.go`.  The Go source of `Decompress` is a literal
duplicate of `Download`, and so is this definition. -/
def Decompress (env : Env) (u : URL) (path : String) (fs : FS) :
    Except GoError Unit × FS :=
  -- dir, file := filepath.Split(path); if dir == "" { dir = "." }
  let dir0 := (splitPath path).1
  let file := (splitPath path).2
  let dir := if dir0 = "" then "." else dir0
  -- if err := os.MkdirAll(dir, 0o755); err != nil { return err }
  match env.mkdirRes with
  | some e => (Except.error (GoError.base e), fs)
  | none =>
  let fs1 := mkdirAll fs dir 493
  -- tmpFile, err := ioutil.TempFile(dir, file)
  match env.tempRes with
  | some e =>
      (Except.error (GoError.wrapped "create temporary file" (GoError.base e)), fs1)
  | none =>
  let tmp := dir ++ file ++ env.tempSuffix
  let fs2 : FS := { fs1 with files := setKey fs1.files tmp [] }
  -- from here the `moved` guard is armed: every failure path removes tmp
  -- req, err := http.NewRequest(http.MethodGet, u.String(), nil)
  match env.reqRes with
  | some e =>
      (Except.error (GoError.base e), { fs2 with files := removeKey fs2.files tmp })
  | none =>
  -- resp, err := client.Do(req)
  match env.doRes with
  | Except.error e =>
      (Except.error (GoError.base e), { fs2 with files := removeKey fs2.files tmp })
  | Except.ok resp =>
  -- switch { case strings.HasSuffix(u.Path, "gz"): ... }
  let sel : Except String (Except String (List Nat)) :=
    if hasSuffix u.path "gz" then
      match env.gzipInit resp.body with
      | some e => Except.error e
      | none => Except.ok (env.gzipRead resp.body)
    else if hasSuffix u.path "bz2" then
      Except.ok (env.bzip2Read resp.body)
    else if hasSuffix u.path "xz" then
      match env.xzInit resp.body with
      | some e => Except.error e
      | none => Except.ok (env.xzRead resp.body)
    else
      Except.ok (Except.ok resp.body)
  match sel with
  | Except.error e =>
      (Except.error (GoError.base e), { fs2 with files := removeKey fs2.files tmp })
  | Except.ok readRes =>
  -- if _, err := io.Copy(tmpFile, r); err != nil { return err }
  match readRes with
  | Except.error e =>
      (Except.error (GoError.base e), { fs2 with files := removeKey fs2.files tmp })
  | Except.ok data =>
  match env.copyWriteRes with
  | some e =>
      (Except.error (GoError.base e),
       { fs2 with files :=
           removeKey (setKey fs2.files tmp (data.take env.copyWrittenLen)) tmp })
  | none =>
  let fs3 : FS := { fs2 with files := setKey fs2.files tmp data }
  -- if err := tmpFile.Close(); err != nil { return fmt.Errorf(...) }
  match env.closeRes with
  | some e =>
      (Except.error (GoError.wrapped "write and close temporary file" (GoError.base e)),
       { fs3 with files := removeKey fs3.files tmp })
  | none =>
  -- if err := os.Rename(tmpFile.Name(), path); err != nil { return err }
  match env.renameRes with
  | some e =>
      (Except.error (GoError.base e), { fs3 with files := removeKey fs3.files tmp })
  | none =>
  -- moved = true; return nil
  (Except.ok (), { fs3 with files := setKey (removeKey fs3.files tmp) path data })

/-- The bytes the pipeline would deliver for a given transport outcome and
URL path, following the spec's ordered, case-sensitive trailing-substring
decoder selection: `gz` first (gzip), then `bz2` (bzip2), then `xz` (xz),
otherwise the raw body.  Init failures of gzip/xz and read failures of any
decoder are errors. -/
def decodedBody (env : Env) (upath : String) : Except String (List Nat) :=
  match env.doRes with
  | Except.error e => Except.error e
  | Except.ok resp =>
    if hasSuffix upath "gz" then
      match env.gzipInit resp.body with
      | some e => Except.error e
      | none => env.gzipRead resp.body
    else if hasSuffix upath "bz2" then
      env.bzip2Read resp.body
    else if hasSuffix upath "xz" then
      match env.xzInit resp.body with
      | some e => Except.error e
      | none => env.xzRead resp.body
    else
      Except.ok resp.body

/-! ### Association-list lemmas -/

theorem lookupKey_removeKey_self {α : Type} (fs : List (String × α)) (p : String) :
    lookupKey (removeKey fs p) p = none := by
  induction fs with
  | nil => simp [removeKey, lookupKey]
  | cons e fs ih =>
    by_cases he : e.1 = p
    · simpa [removeKey, he] using ih
    · simpa [removeKey, lookupKey, he] using ih

theorem lookupKey_removeKey_ne {α : Type} (fs : List (String × α)) (p q : String)
    (h : q ≠ p) :
    lookupKey (removeKey fs p) q = lookupKey fs q := by
  induction fs with
  | nil => simp [removeKey]
  | cons e fs ih =>
    simp only [removeKey, lookupKey]
    by_cases he : e.1 = p
    · rw [if_pos he, ih, if_neg (fun hc : e.1 = q => h ((he.symm.trans hc).symm))]
    · rw [if_neg he]
      simp only [lookupKey]
      rw [ih]

theorem lookupKey_setKey_self {α : Type} (fs : List (String × α)) (p : String) (c : α) :
    lookupKey (setKey fs p c) p = some c := by
  simp [setKey, lookupKey]

theorem lookupKey_setKey_ne {α : Type} (fs : List (String × α)) (p q : String) (c : α)
    (h : q ≠ p) :
    lookupKey (setKey fs p c) q = lookupKey fs q := by
  simp only [setKey, lookupKey]
  rw [if_neg (fun hc : p = q => h hc.symm), lookupKey_removeKey_ne fs p q h]

theorem removeKey_setKey {α : Type} (fs : List (String × α)) (p : String) (c : α) :
    removeKey (setKey fs p c) p = removeKey fs p := by
  induction fs with
  | nil => simp [setKey, removeKey]
  | cons e fs ih =>
    by_cases he : e.1 = p
    · simpa [setKey, removeKey, he] using ih
    · simp only [setKey, removeKey, if_pos rfl, if_neg he] at ih ⊢
      exact congrArg (e :: ·) (by simpa [removeKey, he] using ih)

theorem removeKey_eq_self {α : Type} (fs : List (String × α)) (p : String)
    (h : lookupKey fs p = none) :
    removeKey fs p = fs := by
  induction fs with
  | nil => simp [removeKey]
  | cons e fs ih =>
    by_cases he : e.1 = p
    · simp [lookupKey, he] at h
    · simp only [lookupKey, if_neg he] at h
      simp [removeKey, he, ih h]

theorem countKey_removeKey_self {α : Type} (fs : List (String × α)) (p : String) :
    countKey (removeKey fs p) p = 0 := by
  induction fs with
  | nil => simp [removeKey, countKey]
  | cons e fs ih =>
    by_cases he : e.1 = p
    · simpa [removeKey, he] using ih
    · simpa [removeKey, countKey, he] using ih

theorem countKey_setKey_self {α : Type} (fs : List (String × α)) (p : String) (c : α) :
    countKey (setKey fs p c) p = 1 := by
  simp [setKey, countKey, countKey_removeKey_self]

/-! ### Path lemmas -/

theorem data_append (a b : String) : (a ++ b).data = a.data ++ b.data := rfl

theorem data_empty : ("" : String).data = [] := rfl

theorem data_length_ne_zero (s : String) (h : s ≠ "") : s.data.length ≠ 0 := by
  intro hl
  apply h
  cases s with
  | mk d =>
    cases d with
    | nil => rfl
    | cons c cs => simp at hl

theorem splitChars_append (cs : List Char) :
    (splitChars cs).1 ++ (splitChars cs).2 = cs := by
  induction cs with
  | nil => rfl
  | cons c cs ih =>
    simp only [splitChars]
    by_cases hc : cs.contains '/'
    · rw [if_pos hc]
      simpa using ih
    · rw [if_neg hc]
      by_cases h2 : c = '/'
      · rw [if_pos h2, h2]
        rfl
      · rw [if_neg h2]
        rfl

theorem splitPath_append (p : String) :
    (splitPath p).1 ++ (splitPath p).2 = p := by
  cases p with
  | mk d =>
    show String.mk ((splitChars d).1 ++ (splitChars d).2) = String.mk d
    rw [splitChars_append]

theorem tmpNameOf_ne (env : Env) (path : String) (h : env.tempSuffix ≠ "") :
    tmpNameOf env path ≠ path := by
  intro he
  have hsuf := data_length_ne_zero env.tempSuffix h
  have hd := congrArg (fun s => s.data.length) he
  have hp := congrArg (fun s => s.data.length) (splitPath_append path)
  simp only [tmpNameOf, data_append, List.length_append] at hd hp
  by_cases hdir : (splitPath path).1 = ""
  · rw [hdir] at hp
    rw [if_pos hdir] at hd
    simp only [data_empty, List.length_nil] at hp
    have hdot : ("." : String).data.length = 1 := rfl
    omega
  · rw [if_neg hdir] at hd
    omega

/-! ### Stage-by-stage characterisation of `Download` -/

/-- Normalised directory: the Go `dir` variable after the empty-directory
substitution (`if dir == "" { dir = "." }`). -/
def normDir (path : String) : String :=
  if (splitPath path).1 = "" then "." else (splitPath path).1

theorem download_mkdir_err (env : Env) (u : URL) (path : String) (fs : FS) (e : String)
    (hmk : env.mkdirRes = some e) :
    Download env u path fs = (Except.error (GoError.base e), fs) := by
  unfold Download
  simp only [hmk]

theorem download_temp_err (env : Env) (u : URL) (path : String) (fs : FS) (e : String)
    (hmk : env.mkdirRes = none) (htf : env.tempRes = some e) :
    Download env u path fs =
      (Except.error (GoError.wrapped "create temporary file" (GoError.base e)),
       mkdirAll fs (normDir path) 493) := by
  unfold Download
  simp only [hmk, htf, normDir]

theorem download_req_err (env : Env) (u : URL) (path : String) (fs : FS) (e : String)
    (hmk : env.mkdirRes = none) (htf : env.tempRes = none) (hreq : env.reqRes = some e) :
    Download env u path fs =
      (Except.error (GoError.base e),
       { files := removeKey fs.files (tmpNameOf env path),
         dirs := (mkdirAll fs (normDir path) 493).dirs }) := by
  unfold Download
  simp only [hmk, htf, hreq, normDir, tmpNameOf, mkdirAll, removeKey_setKey]

theorem download_do_err (env : Env) (u : URL) (path : String) (fs : FS) (e : String)
    (hmk : env.mkdirRes = none) (htf : env.tempRes = none) (hreq : env.reqRes = none)
    (hdo : env.doRes = Except.error e) :
    Download env u path fs =
      (Except.error (GoError.base e),
       { files := removeKey fs.files (tmpNameOf env path),
         dirs := (mkdirAll fs (normDir path) 493).dirs }) := by
  unfold Download
  simp only [hmk, htf, hreq, hdo, normDir, tmpNameOf, mkdirAll, removeKey_setKey]

theorem download_past_transport (env : Env) (u : URL) (path : String) (fs : FS) (resp : Resp)
    (hmk : env.mkdirRes = none) (htf : env.tempRes = none) (hreq : env.reqRes = none)
    (hdo : env.doRes = Except.ok resp) :
    Download env u path fs =
      match decodedBody env u.path with
      | Except.error e =>
        (Except.error (GoError.base e),
         { files := removeKey fs.files (tmpNameOf env path),
           dirs := (mkdirAll fs (normDir path) 493).dirs })
      | Except.ok data =>
        match env.copyWriteRes with
        | some e =>
          (Except.error (GoError.base e),
           { files := removeKey fs.files (tmpNameOf env path),
             dirs := (mkdirAll fs (normDir path) 493).dirs })
        | none =>
          match env.closeRes with
          | some e =>
            (Except.error (GoError.wrapped "write and close temporary file" (GoError.base e)),
             { files := removeKey fs.files (tmpNameOf env path),
               dirs := (mkdirAll fs (normDir path) 493).dirs })
          | none =>
            match env.renameRes with
            | some e =>
              (Except.error (GoError.base e),
               { files := removeKey fs.files (tmpNameOf env path),
                 dirs := (mkdirAll fs (normDir path) 493).dirs })
            | none =>
              (Except.ok (),
               { files := setKey (removeKey fs.files (tmpNameOf env path)) path data,
                 dirs := (mkdirAll fs (normDir path) 493).dirs }) := by
  unfold Download decodedBody
  simp only [hmk, htf, hreq, hdo]
  by_cases hgz : hasSuffix u.path "gz" = true
  · simp only [hgz, if_true]
    cases hgi : env.gzipInit resp.body with
    | some e => simp [mkdirAll, normDir, tmpNameOf, removeKey_setKey]
    | none =>
      cases hgr : env.gzipRead resp.body with
      | error e => simp [mkdirAll, normDir, tmpNameOf, removeKey_setKey]
      | ok data =>
        cases hcw : env.copyWriteRes with
        | some e => simp [mkdirAll, normDir, tmpNameOf, removeKey_setKey]
        | none =>
          cases hcl : env.closeRes with
          | some e => simp [mkdirAll, normDir, tmpNameOf, removeKey_setKey]
          | none =>
            cases hrn : env.renameRes with
            | some e => simp [mkdirAll, normDir, tmpNameOf, removeKey_setKey]
            | none => simp [mkdirAll, normDir, tmpNameOf, removeKey_setKey]
  · simp only [hgz, if_false]
    by_cases hbz : hasSuffix u.path "bz2" = true
    · simp only [hbz, if_true]
      cases hbr : env.bzip2Read resp.body with
      | error e => simp [mkdirAll, normDir, tmpNameOf, removeKey_setKey]
      | ok data =>
        cases hcw : env.copyWriteRes with
        | some e => simp [mkdirAll, normDir, tmpNameOf, removeKey_setKey]
        | none =>
          cases hcl : env.closeRes with
          | some e => simp [mkdirAll, normDir, tmpNameOf, removeKey_setKey]
          | none =>
            cases hrn : env.renameRes with
            | some e => simp [mkdirAll, normDir, tmpNameOf, removeKey_setKey]
            | none => simp [mkdirAll, normDir, tmpNameOf, removeKey_setKey]
    · simp only [hbz, if_false]
      by_cases hxz : hasSuffix u.path "xz" = true
      · simp only [hxz, if_true]
        cases hxi : env.xzInit resp.body with
        | some e => simp [mkdirAll, normDir, tmpNameOf, removeKey_setKey]
        | none =>
          cases hxr : env.xzRead resp.body with
          | error e => simp [mkdirAll, normDir, tmpNameOf, removeKey_setKey]
          | ok data =>
            cases hcw : env.copyWriteRes with
            | some e => simp [mkdirAll, normDir, tmpNameOf, removeKey_setKey]
            | none =>
              cases hcl : env.closeRes with
              | some e => simp [mkdirAll, normDir, tmpNameOf, removeKey_setKey]
              | none =>
                cases hrn : env.renameRes with
                | some e => simp [mkdirAll, normDir, tmpNameOf, removeKey_setKey]
                | none => simp [mkdirAll, normDir, tmpNameOf, removeKey_setKey]
      · simp only [hxz, if_false]
        cases hcw : env.copyWriteRes with
        | some e => simp [mkdirAll, normDir, tmpNameOf, removeKey_setKey]
        | none =>
          cases hcl : env.closeRes with
          | some e => simp [mkdirAll, normDir, tmpNameOf, removeKey_setKey]
          | none =>
            cases hrn : env.renameRes with
            | some e => simp [mkdirAll, normDir, tmpNameOf, removeKey_setKey]
            | none => simp [mkdirAll, normDir, tmpNameOf, removeKey_setKey]

/-! ### Derived facts used by several claims -/

theorem mkdirAll_files (fs : FS) (dir : String) (m : Nat) :
    (mkdirAll fs dir m).files = fs.files := rfl

theorem lookupKey_foldl_preserve (m : Nat) (L : List String) (ds : List (String × Nat))
    (d : String) (v : Nat) (h : lookupKey ds d = some v) :
    lookupKey
      (L.foldl (fun ds d => if (lookupKey ds d).isSome then ds else (d, m) :: ds) ds)
      d = some v := by
  induction L generalizing ds with
  | nil => exact h
  | cons x L ih =>
    simp only [List.foldl_cons]
    apply ih
    by_cases hx : (lookupKey ds x).isSome
    · rw [if_pos hx]
      exact h
    · rw [if_neg hx]
      simp only [lookupKey]
      by_cases hxd : x = d
      · rw [hxd, h] at hx
        simp at hx
      · rw [if_neg hxd]
        exact h

theorem lookupKey_foldl_creates (m : Nat) (L : List String) (ds : List (String × Nat))
    (d : String) (hd : d ∈ L) (h0 : lookupKey ds d = none) :
    lookupKey
      (L.foldl (fun ds d => if (lookupKey ds d).isSome then ds else (d, m) :: ds) ds)
      d = some m := by
  induction L generalizing ds with
  | nil => simp at hd
  | cons x L ih =>
    simp only [List.foldl_cons]
    by_cases hxd : x = d
    · have hx : ¬ (lookupKey ds x).isSome := by
        rw [hxd, h0]
        simp
      rw [if_neg hx]
      apply lookupKey_foldl_preserve
      simp [lookupKey, hxd]
    · rcases List.mem_cons.mp hd with h | h
      · exact absurd h.symm hxd
      · apply ih _ h
        by_cases hx : (lookupKey ds x).isSome
        · rw [if_pos hx]
          exact h0
        · rw [if_neg hx]
          simp only [lookupKey]
          rw [if_neg hxd]
          exact h0

theorem lookupKey_mkdirAll_creates (fs : FS) (dir : String) (m : Nat) (d : String)
    (hd : d ∈ ancestorDirs dir) (h0 : lookupKey fs.dirs d = none) :
    lookupKey (mkdirAll fs dir m).dirs d = some m := by
  simp only [mkdirAll]
  exact lookupKey_foldl_creates m (ancestorDirs dir) fs.dirs d hd h0

theorem lookupKey_mkdirAll_preserve (fs : FS) (dir : String) (m : Nat) (d : String) (v : Nat)
    (h : lookupKey fs.dirs d = some v) :
    lookupKey (mkdirAll fs dir m).dirs d = some v := by
  simp only [mkdirAll]
  exact lookupKey_foldl_preserve m (ancestorDirs dir) fs.dirs d v h

theorem lookupKey_mkdirAll_isSome (fs : FS) (dir : String) (m : Nat) (d : String)
    (hd : d ∈ ancestorDirs dir) :
    (lookupKey (mkdirAll fs dir m).dirs d).isSome := by
  cases h0 : lookupKey fs.dirs d with
  | none => rw [lookupKey_mkdirAll_creates fs dir m d hd h0]; rfl
  | some v => rw [lookupKey_mkdirAll_preserve fs dir m d v h0]; rfl

theorem download_dirs (env : Env) (u : URL) (path : String) (fs : FS)
    (hmk : env.mkdirRes = none) :
    (Download env u path fs).2.dirs = (mkdirAll fs (normDir path) 493).dirs := by
  cases htf : env.tempRes with
  | some e => rw [download_temp_err env u path fs e hmk htf]
  | none =>
  cases hreq : env.reqRes with
  | some e => rw [download_req_err env u path fs e hmk htf hreq]
  | none =>
  cases hdo : env.doRes with
  | error e => rw [download_do_err env u path fs e hmk htf hreq hdo]
  | ok resp =>
    rw [download_past_transport env u path fs resp hmk htf hreq hdo]
    cases hdec : decodedBody env u.path <;>
      cases hcw : env.copyWriteRes <;>
      cases hcl : env.closeRes <;>
      cases hrn : env.renameRes <;>
      simp [hdec, hcw, hcl, hrn]

theorem download_tmp_gone (env : Env) (u : URL) (path : String) (fs : FS)
    (hmk : env.mkdirRes = none) (htf : env.tempRes = none)
    (hs : env.tempSuffix ≠ "") :
    lookupKey (Download env u path fs).2.files (tmpNameOf env path) = none := by
  have hne := tmpNameOf_ne env path hs
  cases hreq : env.reqRes with
  | some e =>
    rw [download_req_err env u path fs e hmk htf hreq]
    exact lookupKey_removeKey_self fs.files (tmpNameOf env path)
  | none =>
  cases hdo : env.doRes with
  | error e =>
    rw [download_do_err env u path fs e hmk htf hreq hdo]
    exact lookupKey_removeKey_self fs.files (tmpNameOf env path)
  | ok resp =>
    rw [download_past_transport env u path fs resp hmk htf hreq hdo]
    cases hdec : decodedBody env u.path <;>
      cases hcw : env.copyWriteRes <;>
      cases hcl : env.closeRes <;>
      cases hrn : env.renameRes <;>
      simp [hdec, hcw, hcl, hrn, lookupKey_removeKey_self,
        lookupKey_setKey_ne _ _ _ _ hne]

theorem download_err_files (env : Env) (u : URL) (path : String) (fs : FS) (e : GoError)
    (herr : (Download env u path fs).1 = Except.error e) :
    (Download env u path fs).2.files = fs.files ∨
      (Download env u path fs).2.files = removeKey fs.files (tmpNameOf env path) := by
  cases hmk : env.mkdirRes with
  | some e2 => rw [download_mkdir_err env u path fs e2 hmk]; left; rfl
  | none =>
  cases htf : env.tempRes with
  | some e2 => rw [download_temp_err env u path fs e2 hmk htf]; left; rfl
  | none =>
  cases hreq : env.reqRes with
  | some e2 => rw [download_req_err env u path fs e2 hmk htf hreq]; right; rfl
  | none =>
  cases hdo : env.doRes with
  | error e2 => rw [download_do_err env u path fs e2 hmk htf hreq hdo]; right; rfl
  | ok resp =>
    rw [download_past_transport env u path fs resp hmk htf hreq hdo] at herr ⊢
    cases hdec : decodedBody env u.path <;>
      cases hcw : env.copyWriteRes <;>
      cases hcl : env.closeRes <;>
      cases hrn : env.renameRes <;>
      simp [hdec, hcw, hcl, hrn] at herr ⊢

theorem download_ok_shape (env : Env) (u : URL) (path : String) (fs : FS)
    (hok : (Download env u path fs).1 = Except.ok ()) :
    env.mkdirRes = none ∧ env.tempRes = none ∧ env.reqRes = none ∧
      env.copyWriteRes = none ∧ env.closeRes = none ∧ env.renameRes = none ∧
      ∃ data, decodedBody env u.path = Except.ok data ∧
        (Download env u path fs).2.files =
          setKey (removeKey fs.files (tmpNameOf env path)) path data := by
  cases hmk : env.mkdirRes with
  | some e => rw [download_mkdir_err env u path fs e hmk] at hok; simp at hok
  | none =>
  cases htf : env.tempRes with
  | some e => rw [download_temp_err env u path fs e hmk htf] at hok; simp at hok
  | none =>
  cases hreq : env.reqRes with
  | some e => rw [download_req_err env u path fs e hmk htf hreq] at hok; simp at hok
  | none =>
  cases hdo : env.doRes with
  | error e => rw [download_do_err env u path fs e hmk htf hreq hdo] at hok; simp at hok
  | ok resp =>
    rw [download_past_transport env u path fs resp hmk htf hreq hdo] at hok ⊢
    cases hdec : decodedBody env u.path with
    | error e => simp [hdec] at hok
    | ok data =>
      cases hcw : env.copyWriteRes with
      | some e => simp [hdec, hcw] at hok
      | none =>
      cases hcl : env.closeRes with
      | some e => simp [hdec, hcw, hcl] at hok
      | none =>
      cases hrn : env.renameRes with
      | some e => simp [hdec, hcw, hcl, hrn] at hok
      | none =>
        refine ⟨rfl, rfl, rfl, rfl, rfl, rfl, data, rfl, ?_⟩
        simp [hdec, hcw, hcl, hrn]

/-! ### Concrete worlds for witnesses and counterexamples -/

/-- Empty filesystem. -/
def fs0 : FS := { files := [], dirs := [] }

/-- A URL whose path matches none of the compression suffixes. -/
def u0 : URL := { path := "/files/data.txt" }

/-- A URL whose path ends in `gz` via the non-extension substring `zgz`. -/
def uZgz : URL := { path := "/files/a.zgz" }

/-- A URL whose path ends in `bz2`. -/
def uBz2 : URL := { path := "/files/data.bz2" }

/-- A URL whose path ends in `xz`. -/
def uXz : URL := { path := "/files/data.xz" }

/-- A world in which every external call succeeds: the transport returns a
status-200 response with body `[10, 20]`, and the three decoders, when
selected, deliver `[7]`, `[8]`, `[9]` respectively. -/
def envOk : Env :=
  { mkdirRes := none
    tempRes := none
    tempSuffix := "123456"
    reqRes := none
    doRes := Except.ok { status := 200, body := [10, 20] }
    gzipInit := fun _ => none
    gzipRead := fun _ => Except.ok [7]
    bzip2Read := fun _ => Except.ok [8]
    xzInit := fun _ => none
    xzRead := fun _ => Except.ok [9]
    copyWriteRes := none
    copyWrittenLen := 0
    closeRes := none
    renameRes := none }

/-! ### Claims -/

/-- C1: for every call to `Download` that returns success, exactly one file
exists at the destination path, its content exactly equals the decompressed
(or, when no compression suffix matched, raw) bytes of the response body,
and no temporary file remains — all other paths are exactly as before the
call.  The freshness hypothesis is `ioutil.TempFile`'s guarantee that the
temporary name it picks does not already exist; the non-empty random part
is likewise TempFile's unique-naming guarantee. -/
theorem c1_success_exact_content_no_temp
    (env : Env) (u : URL) (path : String) (fs : FS)
    (hok : (Download env u path fs).1 = Except.ok ())
    (hs : env.tempSuffix ≠ "")
    (hfresh : lookupKey fs.files (tmpNameOf env path) = none) :
    ∃ data, decodedBody env u.path = Except.ok data ∧
      lookupKey (Download env u path fs).2.files path = some data ∧
      countKey (Download env u path fs).2.files path = 1 ∧
      lookupKey (Download env u path fs).2.files (tmpNameOf env path) = none ∧
      ∀ q, q ≠ path →
        lookupKey (Download env u path fs).2.files q = lookupKey fs.files q := by
  obtain ⟨hmk, htf, hreq, hcw, hcl, hrn, data, hdec, hfiles⟩ :=
    download_ok_shape env u path fs hok
  have hne := tmpNameOf_ne env path hs
  refine ⟨data, hdec, ?_, ?_, ?_, ?_⟩
  · rw [hfiles]
    exact lookupKey_setKey_self _ _ _
  · rw [hfiles]
    exact countKey_setKey_self _ _ _
  · rw [hfiles, lookupKey_setKey_ne _ _ _ _ hne, lookupKey_removeKey_self]
  · intro q hq
    rw [hfiles, lookupKey_setKey_ne _ _ _ _ hq]
    by_cases hqt : q = tmpNameOf env path
    · rw [hqt, lookupKey_removeKey_self, hfresh]
    · rw [lookupKey_removeKey_ne _ _ _ hqt]

/-- Witness for C1 at a concrete all-success world. -/
theorem c1_success_exact_content_no_temp_witness :
    (Download envOk u0 "out/data.txt" fs0).1 = Except.ok () ∧
    envOk.tempSuffix ≠ "" ∧
    lookupKey fs0.files (tmpNameOf envOk "out/data.txt") = none ∧
    (∃ data, decodedBody envOk u0.path = Except.ok data ∧
      lookupKey (Download envOk u0 "out/data.txt" fs0).2.files "out/data.txt" = some data ∧
      countKey (Download envOk u0 "out/data.txt" fs0).2.files "out/data.txt" = 1 ∧
      lookupKey (Download envOk u0 "out/data.txt" fs0).2.files
        (tmpNameOf envOk "out/data.txt") = none ∧
      ∀ q, q ≠ "out/data.txt" →
        lookupKey (Download envOk u0 "out/data.txt" fs0).2.files q =
          lookupKey fs0.files q) :=
  ⟨rfl, by decide, rfl,
   c1_success_exact_content_no_temp envOk u0 "out/data.txt" fs0 rfl (by decide) rfl⟩

/-- C2: for every call to `Download` that returns a non-nil error, whatever
stage failed, the destination path is exactly as before the call: a
pre-existing file is unmodified and no file is created there. -/
theorem c2_failure_preserves_destination
    (env : Env) (u : URL) (path : String) (fs : FS) (e : GoError)
    (herr : (Download env u path fs).1 = Except.error e)
    (hs : env.tempSuffix ≠ "") :
    lookupKey (Download env u path fs).2.files path = lookupKey fs.files path := by
  have hne := tmpNameOf_ne env path hs
  rcases download_err_files env u path fs e herr with h | h
  · rw [h]
  · rw [h, lookupKey_removeKey_ne _ _ _ (fun hc => hne hc.symm)]

/-- A world in which the transport (`client.Do`) fails. -/
def envDoErr : Env := { envOk with doRes := Except.error "connection refused" }

/-- Witness for C2 at a concrete transport-failure world with a
pre-existing destination file. -/
theorem c2_failure_preserves_destination_witness :
    (Download envDoErr u0 "out/data.txt"
        { files := [("out/data.txt", [1])], dirs := [] }).1 =
      Except.error (GoError.base "connection refused") ∧
    envDoErr.tempSuffix ≠ "" ∧
    lookupKey (Download envDoErr u0 "out/data.txt"
        { files := [("out/data.txt", [1])], dirs := [] }).2.files "out/data.txt" =
      lookupKey ([("out/data.txt", [1])] : List (String × List Nat)) "out/data.txt" :=
  ⟨rfl, by decide,
   c2_failure_preserves_destination envDoErr u0 "out/data.txt"
     { files := [("out/data.txt", [1])], dirs := [] }
     (GoError.base "connection refused") rfl (by decide)⟩

/-- C3: in every call in which the temporary file is successfully created,
the cleanup guard ensures that after the call — success (the rename moved
the file away and disarmed the guard) or failure (the armed guard removed
it) — no file remains at the temporary name. -/
theorem c3_no_temp_file_remains
    (env : Env) (u : URL) (path : String) (fs : FS)
    (hmk : env.mkdirRes = none) (htf : env.tempRes = none)
    (hs : env.tempSuffix ≠ "") :
    lookupKey (Download env u path fs).2.files (tmpNameOf env path) = none :=
  download_tmp_gone env u path fs hmk htf hs

/-- Witness for C3 at the all-success world (rename path) — the guard was
disarmed, yet the temp name is gone because rename moved it. -/
theorem c3_no_temp_file_remains_witness :
    envOk.mkdirRes = none ∧ envOk.tempRes = none ∧ envOk.tempSuffix ≠ "" ∧
    lookupKey (Download envOk u0 "out/data.txt" fs0).2.files
      (tmpNameOf envOk "out/data.txt") = none :=
  ⟨rfl, rfl, by decide,
   c3_no_temp_file_remains envOk u0 "out/data.txt" fs0 rfl rfl (by decide)⟩

/-- C4: the decoder is selected by case-sensitive plain trailing-substring
tests on the URL path, in the order `gz` (gzip), then `bz2` (bzip2), then
`xz` (xz), otherwise the raw body is passed through; and a path merely
ending in the substring `zgz` (not a `.gz` extension) also selects gzip, as
witnessed by the concrete run on `uZgz` whose destination receives the gzip
reader's output `[7]` rather than the raw body `[10, 20]`. -/
theorem c4_decoder_selection_order
    (env : Env) (u : URL) (path : String) (fs : FS) (resp : Resp)
    (hmk : env.mkdirRes = none) (htf : env.tempRes = none) (hreq : env.reqRes = none)
    (hdo : env.doRes = Except.ok resp)
    (hcw : env.copyWriteRes = none) (hcl : env.closeRes = none)
    (hrn : env.renameRes = none) :
    (∀ d, hasSuffix u.path "gz" = true → env.gzipInit resp.body = none →
      env.gzipRead resp.body = Except.ok d →
      lookupKey (Download env u path fs).2.files path = some d) ∧
    (∀ d, hasSuffix u.path "gz" = false → hasSuffix u.path "bz2" = true →
      env.bzip2Read resp.body = Except.ok d →
      lookupKey (Download env u path fs).2.files path = some d) ∧
    (∀ d, hasSuffix u.path "gz" = false → hasSuffix u.path "bz2" = false →
      hasSuffix u.path "xz" = true → env.xzInit resp.body = none →
      env.xzRead resp.body = Except.ok d →
      lookupKey (Download env u path fs).2.files path = some d) ∧
    (hasSuffix u.path "gz" = false → hasSuffix u.path "bz2" = false →
      hasSuffix u.path "xz" = false →
      lookupKey (Download env u path fs).2.files path = some resp.body) ∧
    hasSuffix "a.zgz" "gz" = true ∧
    lookupKey (Download envOk uZgz "out/data.txt" fs0).2.files "out/data.txt" =
      some [7] := by
  refine ⟨?_, ?_, ?_, ?_, by decide, by decide⟩
  · intro d hgz hgi hgr
    have hdec : decodedBody env u.path = Except.ok d := by
      unfold decodedBody
      rw [hdo]
      simp [hgz, hgi, hgr]
    rw [download_past_transport env u path fs resp hmk htf hreq hdo]
    simp [hdec, hcw, hcl, hrn, lookupKey_setKey_self]
  · intro d hgz hbz hbr
    have hdec : decodedBody env u.path = Except.ok d := by
      unfold decodedBody
      rw [hdo]
      simp [hgz, hbz, hbr]
    rw [download_past_transport env u path fs resp hmk htf hreq hdo]
    simp [hdec, hcw, hcl, hrn, lookupKey_setKey_self]
  · intro d hgz hbz hxz hxi hxr
    have hdec : decodedBody env u.path = Except.ok d := by
      unfold decodedBody
      rw [hdo]
      simp [hgz, hbz, hxz, hxi, hxr]
    rw [download_past_transport env u path fs resp hmk htf hreq hdo]
    simp [hdec, hcw, hcl, hrn, lookupKey_setKey_self]
  · intro hgz hbz hxz
    have hdec : decodedBody env u.path = Except.ok resp.body := by
      unfold decodedBody
      rw [hdo]
      simp [hgz, hbz, hxz]
    rw [download_past_transport env u path fs resp hmk htf hreq hdo]
    simp [hdec, hcw, hcl, hrn, lookupKey_setKey_self]

/-- Witness for C4 at the all-success world. -/
theorem c4_decoder_selection_order_witness :
    envOk.mkdirRes = none ∧ envOk.tempRes = none ∧ envOk.reqRes = none ∧
    envOk.doRes = Except.ok { status := 200, body := [10, 20] } ∧
    envOk.copyWriteRes = none ∧ envOk.closeRes = none ∧ envOk.renameRes = none ∧
    ((∀ d, hasSuffix uBz2.path "gz" = true →
        envOk.gzipInit ([10, 20] : List Nat) = none →
        envOk.gzipRead ([10, 20] : List Nat) = Except.ok d →
        lookupKey (Download envOk uBz2 "out/data.txt" fs0).2.files "out/data.txt" =
          some d) ∧
     (∀ d, hasSuffix uBz2.path "gz" = false → hasSuffix uBz2.path "bz2" = true →
        envOk.bzip2Read ([10, 20] : List Nat) = Except.ok d →
        lookupKey (Download envOk uBz2 "out/data.txt" fs0).2.files "out/data.txt" =
          some d) ∧
     (∀ d, hasSuffix uBz2.path "gz" = false → hasSuffix uBz2.path "bz2" = false →
        hasSuffix uBz2.path "xz" = true → envOk.xzInit ([10, 20] : List Nat) = none →
        envOk.xzRead ([10, 20] : List Nat) = Except.ok d →
        lookupKey (Download envOk uBz2 "out/data.txt" fs0).2.files "out/data.txt" =
          some d) ∧
     (hasSuffix uBz2.path "gz" = false → hasSuffix uBz2.path "bz2" = false →
        hasSuffix uBz2.path "xz" = false →
        lookupKey (Download envOk uBz2 "out/data.txt" fs0).2.files "out/data.txt" =
          some [10, 20]) ∧
     hasSuffix "a.zgz" "gz" = true ∧
     lookupKey (Download envOk uZgz "out/data.txt" fs0).2.files "out/data.txt" =
       some [7]) :=
  ⟨rfl, rfl, rfl, rfl, rfl, rfl, rfl,
   c4_decoder_selection_order envOk uBz2 "out/data.txt" fs0
     { status := 200, body := [10, 20] } rfl rfl rfl rfl rfl rfl rfl⟩

/-- C5: `Download` performs no HTTP status-code validation: whenever the
client returns a response without a transport error — whatever its status,
e.g. 500 — the body bytes are copied to the destination and the call
succeeds (the remaining stages succeeding), writing the error body as-is on
the raw (no recognized suffix) path; moreover the whole result is
independent of the status code. -/
theorem c5_no_status_code_check
    (env : Env) (u : URL) (path : String) (fs : FS) (s : Nat) (body : List Nat)
    (hdo : env.doRes = Except.ok { status := s, body := body })
    (hmk : env.mkdirRes = none) (htf : env.tempRes = none) (hreq : env.reqRes = none)
    (hcw : env.copyWriteRes = none) (hcl : env.closeRes = none)
    (hrn : env.renameRes = none)
    (hgz : hasSuffix u.path "gz" = false) (hbz : hasSuffix u.path "bz2" = false)
    (hxz : hasSuffix u.path "xz" = false) :
    (Download env u path fs).1 = Except.ok () ∧
    lookupKey (Download env u path fs).2.files path = some body ∧
    ∀ s2, Download { env with doRes := Except.ok { status := s2, body := body } } u path fs =
      Download env u path fs := by
  have hdec : decodedBody env u.path = Except.ok body := by
    unfold decodedBody
    rw [hdo]
    simp [hgz, hbz, hxz]
  refine ⟨?_, ?_, ?_⟩
  · rw [download_past_transport env u path fs { status := s, body := body } hmk htf hreq hdo]
    simp [hdec, hcw, hcl, hrn]
  · rw [download_past_transport env u path fs { status := s, body := body } hmk htf hreq hdo]
    simp [hdec, hcw, hcl, hrn, lookupKey_setKey_self]
  · intro s2
    rw [download_past_transport { env with doRes := Except.ok { status := s2, body := body } }
          u path fs { status := s2, body := body } hmk htf hreq rfl,
        download_past_transport env u path fs { status := s, body := body } hmk htf hreq hdo]
    simp [hdo, hcw, hcl, hrn, decodedBody, hgz, hbz, hxz, tmpNameOf]

/-- A world identical to `envOk` except the transport hands back an HTTP
500 response whose body is the server's error page bytes. -/
def env500 : Env := { envOk with doRes := Except.ok { status := 500, body := [4, 5] } }

/-- Witness for C5: a concrete HTTP 500 response is copied as-is and the
call succeeds. -/
theorem c5_no_status_code_check_witness :
    env500.doRes = Except.ok { status := 500, body := [4, 5] } ∧
    env500.mkdirRes = none ∧ env500.tempRes = none ∧ env500.reqRes = none ∧
    env500.copyWriteRes = none ∧ env500.closeRes = none ∧ env500.renameRes = none ∧
    hasSuffix u0.path "gz" = false ∧ hasSuffix u0.path "bz2" = false ∧
    hasSuffix u0.path "xz" = false ∧
    ((Download env500 u0 "out/data.txt" fs0).1 = Except.ok () ∧
     lookupKey (Download env500 u0 "out/data.txt" fs0).2.files "out/data.txt" =
       some [4, 5] ∧
     ∀ s2, Download { env500 with doRes := Except.ok { status := s2, body := [4, 5] } }
         u0 "out/data.txt" fs0 =
       Download env500 u0 "out/data.txt" fs0) :=
  ⟨rfl, rfl, rfl, rfl, rfl, rfl, rfl, by decide, by decide, by decide,
   c5_no_status_code_check env500 u0 "out/data.txt" fs0 500 [4, 5] rfl rfl rfl rfl
     rfl rfl rfl (by decide) (by decide) (by decide)⟩

/-- C6: invalid-header handling differs per format at decoder construction
time.  For a `gz` or `xz` URL, a failing reader construction aborts the
call with that error before any copy — with no assumption on the copy-stage
oracles, so the outcome is independent of them.  For a `bz2` URL there is
no construction failure point at all (`bzip2.NewReader` returns no error):
the call proceeds to the copy, an invalid stream surfacing only as a
read (copy-stage) error, and succeeds whenever the lazy read and the later
stages succeed. -/
theorem c6_init_failure_per_format
    (env : Env) (u : URL) (path : String) (fs : FS) (resp : Resp)
    (hmk : env.mkdirRes = none) (htf : env.tempRes = none) (hreq : env.reqRes = none)
    (hdo : env.doRes = Except.ok resp) :
    (∀ e, hasSuffix u.path "gz" = true → env.gzipInit resp.body = some e →
      (Download env u path fs).1 = Except.error (GoError.base e)) ∧
    (∀ e, hasSuffix u.path "gz" = false → hasSuffix u.path "bz2" = true →
      env.bzip2Read resp.body = Except.error e →
      (Download env u path fs).1 = Except.error (GoError.base e)) ∧
    (∀ d, hasSuffix u.path "gz" = false → hasSuffix u.path "bz2" = true →
      env.bzip2Read resp.body = Except.ok d → env.copyWriteRes = none →
      env.closeRes = none → env.renameRes = none →
      (Download env u path fs).1 = Except.ok ()) ∧
    (∀ e, hasSuffix u.path "gz" = false → hasSuffix u.path "bz2" = false →
      hasSuffix u.path "xz" = true → env.xzInit resp.body = some e →
      (Download env u path fs).1 = Except.error (GoError.base e)) := by
  refine ⟨?_, ?_, ?_, ?_⟩
  · intro e hgz hgi
    have hdec : decodedBody env u.path = Except.error e := by
      unfold decodedBody
      rw [hdo]
      simp [hgz, hgi]
    rw [download_past_transport env u path fs resp hmk htf hreq hdo]
    simp [hdec]
  · intro e hgz hbz hbr
    have hdec : decodedBody env u.path = Except.error e := by
      unfold decodedBody
      rw [hdo]
      simp [hgz, hbz, hbr]
    rw [download_past_transport env u path fs resp hmk htf hreq hdo]
    simp [hdec]
  · intro d hgz hbz hbr hcw hcl hrn
    have hdec : decodedBody env u.path = Except.ok d := by
      unfold decodedBody
      rw [hdo]
      simp [hgz, hbz, hbr]
    rw [download_past_transport env u path fs resp hmk htf hreq hdo]
    simp [hdec, hcw, hcl, hrn]
  · intro e hgz hbz hxz hxi
    have hdec : decodedBody env u.path = Except.error e := by
      unfold decodedBody
      rw [hdo]
      simp [hgz, hbz, hxz, hxi]
    rw [download_past_transport env u path fs resp hmk htf hreq hdo]
    simp [hdec]

/-- A world identical to `envOk` except the gzip header is invalid, so
`gzip.NewReader` fails. -/
def envGzBad : Env := { envOk with gzipInit := fun _ => some "gzip: invalid header" }

/-- Witness for C6 at a concrete world with an invalid gzip header and a
`gz`-suffixed URL path. -/
theorem c6_init_failure_per_format_witness :
    envGzBad.mkdirRes = none ∧ envGzBad.tempRes = none ∧ envGzBad.reqRes = none ∧
    envGzBad.doRes = Except.ok { status := 200, body := [10, 20] } ∧
    ((∀ e, hasSuffix uZgz.path "gz" = true →
        envGzBad.gzipInit ([10, 20] : List Nat) = some e →
        (Download envGzBad uZgz "out/data.txt" fs0).1 =
          Except.error (GoError.base e)) ∧
     (∀ e, hasSuffix uZgz.path "gz" = false → hasSuffix uZgz.path "bz2" = true →
        envGzBad.bzip2Read ([10, 20] : List Nat) = Except.error e →
        (Download envGzBad uZgz "out/data.txt" fs0).1 =
          Except.error (GoError.base e)) ∧
     (∀ d, hasSuffix uZgz.path "gz" = false → hasSuffix uZgz.path "bz2" = true →
        envGzBad.bzip2Read ([10, 20] : List Nat) = Except.ok d →
        envGzBad.copyWriteRes = none → envGzBad.closeRes = none →
        envGzBad.renameRes = none →
        (Download envGzBad uZgz "out/data.txt" fs0).1 = Except.ok ()) ∧
     (∀ e, hasSuffix uZgz.path "gz" = false → hasSuffix uZgz.path "bz2" = false →
        hasSuffix uZgz.path "xz" = true →
        envGzBad.xzInit ([10, 20] : List Nat) = some e →
        (Download envGzBad uZgz "out/data.txt" fs0).1 =
          Except.error (GoError.base e))) :=
  ⟨rfl, rfl, rfl, rfl,
   c6_init_failure_per_format envGzBad uZgz "out/data.txt" fs0
     { status := 200, body := [10, 20] } rfl rfl rfl rfl⟩

/-- C7: `Download` and `Decompress` are behaviorally identical — for every
client/world behavior, URL, destination path, and starting filesystem they
return equal results and produce equal final filesystem states. -/
theorem c7_decompress_eq_download (env : Env) (u : URL) (path : String) (fs : FS) :
    Decompress env u path fs = Download env u path fs :=
  rfl

/-- C8: directory preparation — the destination splits as
`path = dir ++ base`; an empty directory component is replaced by `"."`
(`normDir`), the temporary file's name lives in that normalised directory
(alongside the final file), and the whole directory tree is recursively
created with mode `0o755 = 493` for every ancestor not already present —
all before temporary-file creation, as shown by the final conjunct: even
when `ioutil.TempFile` itself fails, the call returns with the directories
already created. -/
theorem c8_directory_preparation
    (env : Env) (u : URL) (path : String) (fs : FS)
    (hmk : env.mkdirRes = none) :
    (splitPath path).1 ++ (splitPath path).2 = path ∧
    normDir path = (if (splitPath path).1 = "" then "." else (splitPath path).1) ∧
    tmpNameOf env path = normDir path ++ (splitPath path).2 ++ env.tempSuffix ∧
    (∀ d, d ∈ ancestorDirs (normDir path) →
      (lookupKey (Download env u path fs).2.dirs d).isSome) ∧
    (∀ d, d ∈ ancestorDirs (normDir path) → lookupKey fs.dirs d = none →
      lookupKey (Download env u path fs).2.dirs d = some 493) ∧
    (∀ e, env.tempRes = some e →
      Download env u path fs =
        (Except.error (GoError.wrapped "create temporary file" (GoError.base e)),
         mkdirAll fs (normDir path) 493)) := by
  refine ⟨splitPath_append path, rfl, rfl, ?_, ?_, ?_⟩
  · intro d hd
    rw [download_dirs env u path fs hmk]
    exact lookupKey_mkdirAll_isSome fs (normDir path) 493 d hd
  · intro d hd h0
    rw [download_dirs env u path fs hmk]
    exact lookupKey_mkdirAll_creates fs (normDir path) 493 d hd h0
  · intro e htf
    exact download_temp_err env u path fs e hmk htf

/-- A world identical to `envOk` except temporary-file creation fails. -/
def envTempErr : Env := { envOk with tempRes := some "no space left on device" }

/-- Witness for C8 at a world whose temp-file creation fails, on a
two-level relative destination path. -/
theorem c8_directory_preparation_witness :
    envTempErr.mkdirRes = none ∧
    ((splitPath "out/sub/data.txt").1 ++ (splitPath "out/sub/data.txt").2 =
        "out/sub/data.txt" ∧
     normDir "out/sub/data.txt" =
       (if (splitPath "out/sub/data.txt").1 = "" then "."
        else (splitPath "out/sub/data.txt").1) ∧
     tmpNameOf envTempErr "out/sub/data.txt" =
       normDir "out/sub/data.txt" ++ (splitPath "out/sub/data.txt").2 ++
         envTempErr.tempSuffix ∧
     (∀ d, d ∈ ancestorDirs (normDir "out/sub/data.txt") →
       (lookupKey (Download envTempErr u0 "out/sub/data.txt" fs0).2.dirs d).isSome) ∧
     (∀ d, d ∈ ancestorDirs (normDir "out/sub/data.txt") →
       lookupKey fs0.dirs d = none →
       lookupKey (Download envTempErr u0 "out/sub/data.txt" fs0).2.dirs d = some 493) ∧
     (∀ e, envTempErr.tempRes = some e →
       Download envTempErr u0 "out/sub/data.txt" fs0 =
         (Except.error (GoError.wrapped "create temporary file" (GoError.base e)),
          mkdirAll fs0 (normDir "out/sub/data.txt") 493))) :=
  ⟨rfl, c8_directory_preparation envTempErr u0 "out/sub/data.txt" fs0 rfl⟩

/-- A world in which `os.MkdirAll` fails. -/
def envMkdirErr : Env := { envOk with mkdirRes := some "permission denied" }

/-- C9 counterexample: the claim says every failing stage's error is
wrapped with stage-identifying context, "not returned bare" — but a
directory-creation failure is returned bare (`return err` in the source),
exactly the collaborator's error value with no added context. -/
theorem c9_counterexample_bare_mkdir_error :
    (Download envMkdirErr u0 "out/data.txt" fs0).1 =
      Except.error (GoError.base "permission denied") ∧
    (GoError.base "permission denied").isBare = true :=
  ⟨rfl, rfl⟩

/-- C9 (amended): every stage's error is returned immediately and nothing
is retried — the result is exactly the first failing stage's error; the
temp-file-creation and close stages wrap their error with stage context
("create temporary file" / "write and close temporary file"), while all
other stages (directory creation, request construction, transport,
decompression init, copy, rename) return the collaborator's error bare. -/
theorem c9_error_propagation_per_stage
    (env : Env) (u : URL) (path : String) (fs : FS) :
    (∀ e, env.mkdirRes = some e →
      (Download env u path fs).1 = Except.error (GoError.base e)) ∧
    (∀ e, env.mkdirRes = none → env.tempRes = some e →
      (Download env u path fs).1 =
        Except.error (GoError.wrapped "create temporary file" (GoError.base e))) ∧
    (∀ e, env.mkdirRes = none → env.tempRes = none → env.reqRes = some e →
      (Download env u path fs).1 = Except.error (GoError.base e)) ∧
    (∀ e, env.mkdirRes = none → env.tempRes = none → env.reqRes = none →
      env.doRes = Except.error e →
      (Download env u path fs).1 = Except.error (GoError.base e)) ∧
    (∀ resp e, env.mkdirRes = none → env.tempRes = none → env.reqRes = none →
      env.doRes = Except.ok resp → decodedBody env u.path = Except.error e →
      (Download env u path fs).1 = Except.error (GoError.base e)) ∧
    (∀ resp data e, env.mkdirRes = none → env.tempRes = none → env.reqRes = none →
      env.doRes = Except.ok resp → decodedBody env u.path = Except.ok data →
      env.copyWriteRes = some e →
      (Download env u path fs).1 = Except.error (GoError.base e)) ∧
    (∀ resp data e, env.mkdirRes = none → env.tempRes = none → env.reqRes = none →
      env.doRes = Except.ok resp → decodedBody env u.path = Except.ok data →
      env.copyWriteRes = none → env.closeRes = some e →
      (Download env u path fs).1 =
        Except.error (GoError.wrapped "write and close temporary file" (GoError.base e))) ∧
    (∀ resp data e, env.mkdirRes = none → env.tempRes = none → env.reqRes = none →
      env.doRes = Except.ok resp → decodedBody env u.path = Except.ok data →
      env.copyWriteRes = none → env.closeRes = none → env.renameRes = some e →
      (Download env u path fs).1 = Except.error (GoError.base e)) := by
  refine ⟨?_, ?_, ?_, ?_, ?_, ?_, ?_, ?_⟩
  · intro e hmk
    rw [download_mkdir_err env u path fs e hmk]
  · intro e hmk htf
    rw [download_temp_err env u path fs e hmk htf]
  · intro e hmk htf hreq
    rw [download_req_err env u path fs e hmk htf hreq]
  · intro e hmk htf hreq hdo
    rw [download_do_err env u path fs e hmk htf hreq hdo]
  · intro resp e hmk htf hreq hdo hdec
    rw [download_past_transport env u path fs resp hmk htf hreq hdo]
    simp [hdec]
  · intro resp data e hmk htf hreq hdo hdec hcw
    rw [download_past_transport env u path fs resp hmk htf hreq hdo]
    simp [hdec, hcw]
  · intro resp data e hmk htf hreq hdo hdec hcw hcl
    rw [download_past_transport env u path fs resp hmk htf hreq hdo]
    simp [hdec, hcw, hcl]
  · intro resp data e hmk htf hreq hdo hdec hcw hcl hrn
    rw [download_past_transport env u path fs resp hmk htf hreq hdo]
    simp [hdec, hcw, hcl, hrn]

/-- C10: directory creation is not rolled back — when the directories were
created (MkdirAll succeeded) and a later stage failed, the final state
still holds every ancestor directory of the destination, and the
failure-path cleanup removed only the temporary file, leaving every file
lookup exactly as before the call. -/
theorem c10_created_dirs_survive_failure
    (env : Env) (u : URL) (path : String) (fs : FS) (e : GoError)
    (hmk : env.mkdirRes = none)
    (herr : (Download env u path fs).1 = Except.error e)
    (hfresh : lookupKey fs.files (tmpNameOf env path) = none) :
    (Download env u path fs).2.dirs = (mkdirAll fs (normDir path) 493).dirs ∧
    (∀ d, d ∈ ancestorDirs (normDir path) →
      (lookupKey (Download env u path fs).2.dirs d).isSome) ∧
    (∀ q, lookupKey (Download env u path fs).2.files q = lookupKey fs.files q) := by
  refine ⟨download_dirs env u path fs hmk, ?_, ?_⟩
  · intro d hd
    rw [download_dirs env u path fs hmk]
    exact lookupKey_mkdirAll_isSome fs (normDir path) 493 d hd
  · intro q
    rcases download_err_files env u path fs e herr with h | h
    · rw [h]
    · rw [h]
      by_cases hq : q = tmpNameOf env path
      · rw [hq, lookupKey_removeKey_self, hfresh]
      · rw [lookupKey_removeKey_ne _ _ _ hq]

/-- Witness for C10 at a concrete transport-failure world on a nested
destination path. -/
theorem c10_created_dirs_survive_failure_witness :
    envDoErr.mkdirRes = none ∧
    (Download envDoErr u0 "out/sub/data.txt" fs0).1 =
      Except.error (GoError.base "connection refused") ∧
    lookupKey fs0.files (tmpNameOf envDoErr "out/sub/data.txt") = none ∧
    ((Download envDoErr u0 "out/sub/data.txt" fs0).2.dirs =
        (mkdirAll fs0 (normDir "out/sub/data.txt") 493).dirs ∧
     (∀ d, d ∈ ancestorDirs (normDir "out/sub/data.txt") →
       (lookupKey (Download envDoErr u0 "out/sub/data.txt" fs0).2.dirs d).isSome) ∧
     (∀ q, lookupKey (Download envDoErr u0 "out/sub/data.txt" fs0).2.files q =
       lookupKey fs0.files q)) :=
  ⟨rfl, rfl, rfl,
   c10_created_dirs_survive_failure envDoErr u0 "out/sub/data.txt" fs0
     (GoError.base "connection refused") rfl rfl rfl⟩
